import Mathlib

/-!
Verification of the todo-app backend (Express + Mongoose, `src/index.js`).

The Mongo collections become Lean lists of documents, each route handler a
pure function from a `DB` state (plus the authenticated actor where the
route sits behind `authMiddleware`) to a new state and a response.  The
external collaborators (bcryptjs, jsonwebtoken, Mongo ObjectId validation)
are modelled as concrete executable functions exposing exactly the
behaviour the handlers rely on: salted one-way hashing with a compare
operation, signed tokens carrying a user id, an issued-at time and an
expiry of issued-at + 3600 seconds, and the `ObjectId.isValid` shape check.
Tokens are genuine strings so that the middleware's handling of the
`Authorization` header (JavaScript `replace('Bearer ', '')`, which removes
the first occurrence of the pattern) is modelled on actual string data.
-/

namespace TodoApp

/-! ### Decimal digits codec (numeric fields inside a token string) -/

def digitChar (n : Nat) : Char := Char.ofNat (48 + n)

def charDigit (c : Char) : Option Nat :=
  if ('0' ≤ c) ∧ (c ≤ '9') then some (c.toNat - 48) else none

def natDigitsAux (fuel n : Nat) (acc : List Char) : List Char :=
  match fuel with
  | 0 => digitChar (n % 10) :: acc
  | fuel + 1 =>
    if n < 10 then digitChar n :: acc
    else natDigitsAux fuel (n / 10) (digitChar (n % 10) :: acc)

def natDigits (n : Nat) : List Char := natDigitsAux n n []

def digitsToNatAux : List Char → Nat → Option Nat
  | [], acc => some acc
  | c :: cs, acc =>
    match charDigit c with
    | some d => digitsToNatAux cs (acc * 10 + d)
    | none => none

def digitsToNat (l : List Char) : Option Nat := digitsToNatAux l 0

/-- Powers of ten matching the number of digits `natDigitsAux` emits. -/
def tenPowF (fuel n : Nat) : Nat :=
  match fuel with
  | 0 => 10
  | fuel + 1 => if n < 10 then 10 else 10 * tenPowF fuel (n / 10)

/-! ### Splitting a character list at dots (token field separator) -/

def splitOnDot : List Char → List (List Char)
  | [] => [[]]
  | c :: rest =>
    match splitOnDot rest with
    | [] => [[]]
    | w :: ws => if c = '.' then [] :: w :: ws else (c :: w) :: ws

/-! ### JavaScript-style first-occurrence replacement (for `'Bearer '`) -/

def replaceFirst (pat rep : List Char) : List Char → List Char
  | [] => if pat.isPrefixOf ([] : List Char) then rep else []
  | c :: cs =>
    if pat.isPrefixOf (c :: cs) then rep ++ (c :: cs).drop pat.length
    else c :: replaceFirst pat rep cs

/-- Whether `pat` occurs as a contiguous substring (JS `indexOf` semantics). -/
def containsSub (pat : List Char) : List Char → Bool
  | [] => pat.isPrefixOf ([] : List Char)
  | c :: cs => pat.isPrefixOf (c :: cs) || containsSub pat cs

/-- The middleware's `req.header('Authorization')?.replace('Bearer ', '')`. -/
def stripBearer (h : String) : String :=
  String.mk (replaceFirst "Bearer ".data [] h.data)

/-! ### bcryptjs model: salted one-way hash with a compare operation -/

def bcryptHash (plain : String) (salt : Nat) : String :=
  String.mk (natDigits salt ++ '$' :: plain.data)

def bcryptCompare (plain hash : String) : Bool :=
  List.isSuffixOf ('$' :: plain.data) hash.data

/-! ### jsonwebtoken model: signed tokens with payload id / iat / exp -/

structure JwtPayload where
  id : String
  iat : Nat
  exp : Nat
deriving Repr, DecidableEq

/-- The app signs with `jwt.sign(payloadId, secret, expiresIn 1h)`:
the token encodes the secret it was signed with, the user id, the issue
time and an expiry of exactly issue time + 3600 seconds. -/
def jwtSign (uid sec : String) (now : Nat) : String :=
  String.mk ("jwt".data ++ '.' :: (sec.data ++ '.' :: (uid.data ++
    '.' :: (natDigits now ++ '.' :: natDigits (now + 3600)))))

/-- `jwt.verify(token, secret)`: succeeds only when the token parses, was
signed with the same secret, and has not expired at time `now`. -/
def jwtVerify (tok sec : String) (now : Nat) : Option JwtPayload :=
  match splitOnDot tok.data with
  | [m, s, u, ia, ex] =>
    match digitsToNat ia, digitsToNat ex with
    | some iat, some exp =>
      if m = "jwt".data ∧ s = sec.data ∧ now < exp then
        some { id := String.mk u, iat := iat, exp := exp }
      else none
    | _, _ => none
  | _ => none

/-! ### Mongo ObjectId model -/

def isHexDigit (c : Char) : Bool :=
  (('0' ≤ c) && (c ≤ '9')) || (('a' ≤ c) && (c ≤ 'f')) || (('A' ≤ c) && (c ≤ 'F'))

/-- `mongoose.Types.ObjectId.isValid`: a 12-character string or a
24-character hex string. -/
def isValidObjectId (s : String) : Bool :=
  (s.data.length = 12) || ((s.data.length = 24) && s.data.all isHexDigit)

def hexChar (n : Nat) : Char :=
  if n < 10 then Char.ofNat (48 + n) else Char.ofNat (87 + n)

def hexPad : Nat → Nat → List Char
  | 0, _ => []
  | k + 1, n => hexPad k (n / 16) ++ [hexChar (n % 16)]

/-- Fresh ObjectId generation for `create`, keyed by the state's counter. -/
def objectIdOf (n : Nat) : String := String.mk (hexPad 24 n)

/-! ### Data model: the three Mongoose schemas of `src/index.js` -/

structure UserDoc where
  _id : String
  email : String
  password : String
deriving Repr, DecidableEq

structure ProjectDoc where
  _id : String
  name : String
  user : String
deriving Repr, DecidableEq

structure TodoDoc where
  _id : String
  title : String
  description : Option String
  priority : String
  status : String
  project : String
  user : String
deriving Repr, DecidableEq

/-- The persistent store: one list per collection, plus a counter feeding
fresh ObjectIds to `create`. -/
structure DB where
  users : List UserDoc
  projects : List ProjectDoc
  todos : List TodoDoc
  nextId : Nat
deriving Repr, DecidableEq

/-- Operation-level outcomes, one constructor per distinct failure the
handlers produce (spec section 7 taxonomy). -/
inductive ApiError where
  | unauthenticated
  | invalidToken
  | userNotFound
  | duplicateEmail
  | badPassword
  | validationError
  | invalidId
  | notFound
deriving Repr, DecidableEq

/-! ### Auth Gate (`authMiddleware`) -/

/-- Token extraction from the `Authorization` header: optional chaining on
a missing header, then `replace('Bearer ', '')`, then the `if (!token)`
falsiness check (absent header or empty string both yield no token). -/
def extractToken : Option String → Option String
  | none => none
  | some h =>
    let t := stripBearer h
    if t = "" then none else some t

/-- The middleware: no token means 401 no-token, a token that fails
`jwt.verify` means 401 invalid-token, a verified id that resolves to no
stored user means 404, otherwise the resolved user is attached. -/
def authMiddleware (db : DB) (sec : String) (now : Nat)
    (authHeader : Option String) : Except ApiError UserDoc :=
  match extractToken authHeader with
  | none => .error .unauthenticated
  | some tok =>
    match jwtVerify tok sec now with
    | none => .error .invalidToken
    | some payload =>
      match db.users.find? (fun u => u._id == payload.id) with
      | none => .error .userNotFound
      | some u => .ok u

/-! ### Credential routes -/

/-- `POST /register`: reject an email that already has a user, otherwise
hash the password, persist the new user and return a signed token. -/
def register (db : DB) (sec : String) (now : Nat) (email password : String) :
    DB × Except ApiError String :=
  match db.users.find? (fun u => u.email == email) with
  | some _ => (db, .error .duplicateEmail)
  | none =>
    ({ db with
        users := db.users ++ [{ _id := objectIdOf db.nextId, email := email,
                                password := bcryptHash password db.nextId }],
        nextId := db.nextId + 1 },
     .ok (jwtSign (objectIdOf db.nextId) sec now))

/-- `POST /login`: 404 when no user has the email, 400 when the bcrypt
compare fails, otherwise a fresh signed token for that user's id. -/
def login (db : DB) (sec : String) (now : Nat) (email password : String) :
    Except ApiError String :=
  match db.users.find? (fun u => u.email == email) with
  | none => .error .notFound
  | some user =>
    if bcryptCompare password user.password then .ok (jwtSign user._id sec now)
    else .error .badPassword

/-! ### Ownership-scoped resource routes (actor = user resolved by the gate) -/

/-- `GET /projects`: `Project.find({user: req.user._id})`. -/
def listProjects (db : DB) (actor : UserDoc) : List ProjectDoc :=
  db.projects.filter (fun p => p.user == actor._id)

/-- `POST /projects`: `Project.create({name, user: req.user._id})`; the
schema requires `name`, so an absent name is a validation failure. -/
def createProject (db : DB) (actor : UserDoc) (name : Option String) :
    DB × Except ApiError ProjectDoc :=
  match name with
  | none => (db, .error .validationError)
  | some n =>
    ({ db with
        projects := db.projects ++ [{ _id := objectIdOf db.nextId, name := n,
                                      user := actor._id }],
        nextId := db.nextId + 1 },
     .ok { _id := objectIdOf db.nextId, name := n, user := actor._id })

/-- `GET /todos/:projectId`: `Todo.find({project: projectId, user: req.user._id})`. -/
def listTodos (db : DB) (actor : UserDoc) (projectId : String) : List TodoDoc :=
  db.todos.filter (fun t => t.project == projectId && t.user == actor._id)

/-- `POST /todos/:projectId`: `Todo.create` with the body fields, the path
projectId (no existence check) and `user: req.user._id`; the schema
requires title, priority and status, while description is optional. -/
def createTodo (db : DB) (actor : UserDoc) (projectId : String)
    (title description priority status : Option String) :
    DB × Except ApiError TodoDoc :=
  match title, priority, status with
  | some ti, some pr, some st =>
    ({ db with
        todos := db.todos ++ [{ _id := objectIdOf db.nextId, title := ti,
                                description := description, priority := pr,
                                status := st, project := projectId,
                                user := actor._id }],
        nextId := db.nextId + 1 },
     .ok { _id := objectIdOf db.nextId, title := ti, description := description,
           priority := pr, status := st, project := projectId, user := actor._id })
  | _, _, _ => (db, .error .validationError)

/-- `DELETE /todos/:id`: reject a malformed id, then
`Todo.findByIdAndDelete` (removes the matching document, returns it);
the actor is never consulted. -/
def deleteTodo (db : DB) (_actor : UserDoc) (todoId : String) :
    DB × Except ApiError TodoDoc :=
  if isValidObjectId todoId then
    match db.todos.find? (fun t => t._id == todoId) with
    | none => (db, .error .notFound)
    | some t =>
      ({ db with todos := db.todos.eraseP (fun x => x._id == todoId) }, .ok t)
  else (db, .error .invalidId)

/-- The PATCH body: arbitrary JSON, which Mongoose casts against the
schema, so any subset of the six schema fields may be present (unknown
keys are dropped by strict mode, and `_id` is immutable). -/
structure UpdateBody where
  title : Option String
  description : Option String
  priority : Option String
  status : Option String
  project : Option String
  user : Option String
deriving Repr, DecidableEq

/-- Field-by-field merge a `findByIdAndUpdate` performs: every field
present in the body overwrites, every absent field keeps its value. -/
def applyUpdate (t : TodoDoc) (b : UpdateBody) : TodoDoc :=
  { _id := t._id,
    title := b.title.getD t.title,
    description := b.description.or t.description,
    priority := b.priority.getD t.priority,
    status := b.status.getD t.status,
    project := b.project.getD t.project,
    user := b.user.getD t.user }

/-- `PATCH /todos/:id`: reject a malformed id, then
`Todo.findByIdAndUpdate(todoId, req.body, {new: true, runValidators: true})`,
returning the updated document; the actor is never consulted. -/
def updateTodo (db : DB) (_actor : UserDoc) (todoId : String) (body : UpdateBody) :
    DB × Except ApiError TodoDoc :=
  if isValidObjectId todoId then
    match db.todos.find? (fun t => t._id == todoId) with
    | none => (db, .error .notFound)
    | some t =>
      ({ db with
          todos := db.todos.map
            (fun x => if x._id == todoId then applyUpdate t body else x) },
       .ok (applyUpdate t body))
  else (db, .error .invalidId)

/-- One `POST /register` request as seen by the store: the handler's
response is dropped, the store keeps whatever state the handler left. -/
def runRegister (sec : String) (now : Nat) (db : DB) (r : String × String) : DB :=
  (register db sec now r.1 r.2).1

/-- No two stored users share an email. -/
def emailsNodup (db : DB) : Prop := (db.users.map (fun u => u.email)).Nodup

/-! ### Concrete fixtures used to instantiate the theorems -/

def secW : String := "s3cret"

def userA : UserDoc :=
  { _id := "111111111111", email := "a@x.com", password := bcryptHash "pw1" 0 }

def userB : UserDoc :=
  { _id := "222222222222", email := "b@y.com", password := bcryptHash "pw2" 1 }

def projA : ProjectDoc :=
  { _id := "333333333333", name := "Sprint1", user := "111111111111" }

def todoA : TodoDoc :=
  { _id := "aaaaaaaaaaaa", title := "Write spec", description := some "first task",
    priority := "Low", status := "todo", project := "333333333333",
    user := "111111111111" }

def dbW : DB := { users := [userA, userB], projects := [projA], todos := [todoA], nextId := 7 }

def bodyW : UpdateBody :=
  { title := some "Renamed", description := none, priority := none,
    status := none, project := some "444444444444", user := some "222222222222" }

def tokenW : String := "jwt.s3cret.111111111111.0.3600"

/-! ## Infrastructure lemmas: decimal digit codec -/

theorem natDigitsAux_append (fuel : Nat) :
    ∀ n acc, natDigitsAux fuel n acc = natDigitsAux fuel n [] ++ acc := by
  induction fuel with
  | zero => intro n acc; simp [natDigitsAux]
  | succ f ih =>
    intro n acc
    by_cases h : n < 10
    · simp [natDigitsAux, h]
    · simp only [natDigitsAux, if_neg h]
      rw [ih (n / 10), ih (n / 10) [digitChar (n % 10)]]
      simp

theorem charDigit_digitChar (d : Nat) (hd : d < 10) : charDigit (digitChar d) = some d := by
  interval_cases d <;> decide

theorem digitsToNatAux_append (l₁ : List Char) :
    ∀ l₂ k, digitsToNatAux (l₁ ++ l₂) k =
      match digitsToNatAux l₁ k with
      | some m => digitsToNatAux l₂ m
      | none => none := by
  induction l₁ with
  | nil => intro l₂ k; simp [digitsToNatAux]
  | cons c cs ih =>
    intro l₂ k
    simp only [List.cons_append, digitsToNatAux]
    rcases hc : charDigit c with _ | d
    · simp
    · simp [ih]

theorem digitsToNat_natDigitsAux (fuel : Nat) :
    ∀ n k, n ≤ fuel →
      digitsToNatAux (natDigitsAux fuel n []) k = some (k * tenPowF fuel n + n) := by
  induction fuel with
  | zero =>
    intro n k hn
    interval_cases n
    simp [natDigitsAux, digitsToNatAux, tenPowF, charDigit_digitChar 0 (by omega)]
  | succ f ih =>
    intro n k hn
    by_cases h : n < 10
    · simp [natDigitsAux, h, tenPowF, digitsToNatAux, charDigit_digitChar n h]
    · simp only [natDigitsAux, if_neg h, tenPowF]
      rw [natDigitsAux_append, digitsToNatAux_append, ih (n / 10) k (by omega)]
      simp only [digitsToNatAux, charDigit_digitChar (n % 10) (Nat.mod_lt _ (by omega))]
      congr 1
      have hmul : k * (10 * tenPowF f (n / 10)) = 10 * (k * tenPowF f (n / 10)) := by ring
      rw [hmul]
      generalize k * tenPowF f (n / 10) = m
      omega

theorem digitsToNat_natDigits (n : Nat) : digitsToNat (natDigits n) = some n := by
  unfold digitsToNat natDigits
  rw [digitsToNat_natDigitsAux n n 0 le_rfl]
  simp

theorem eq_digitChar_of_mem_natDigitsAux (fuel : Nat) :
    ∀ n acc c, c ∈ natDigitsAux fuel n acc →
      (∃ d, d < 10 ∧ c = digitChar d) ∨ c ∈ acc := by
  induction fuel with
  | zero =>
    intro n acc c hc
    simp only [natDigitsAux, List.mem_cons] at hc
    rcases hc with h | h
    · exact .inl ⟨n % 10, Nat.mod_lt _ (by omega), h⟩
    · exact .inr h
  | succ f ih =>
    intro n acc c hc
    by_cases h : n < 10
    · simp only [natDigitsAux, if_pos h, List.mem_cons] at hc
      rcases hc with h1 | h1
      · exact .inl ⟨n, h, h1⟩
      · exact .inr h1
    · simp only [natDigitsAux, if_neg h] at hc
      rcases ih (n / 10) _ c hc with h1 | h1
      · exact .inl h1
      · rcases List.mem_cons.mp h1 with h2 | h2
        · exact .inl ⟨n % 10, Nat.mod_lt _ (by omega), h2⟩
        · exact .inr h2

theorem dot_not_mem_natDigits (n : Nat) : ('.' : Char) ∉ natDigits n := by
  intro hmem
  rcases eq_digitChar_of_mem_natDigitsAux n n [] '.' hmem with ⟨d, hd, he⟩ | h
  · interval_cases d <;> exact absurd he (by decide)
  · simp at h

/-! ## Infrastructure lemmas: dot splitting -/

theorem splitOnDot_ne_nil (l : List Char) : splitOnDot l ≠ [] := by
  cases l with
  | nil => simp [splitOnDot]
  | cons c rest =>
    rcases h : splitOnDot rest with _ | ⟨w, ws⟩
    · simp [splitOnDot, h]
    · simp only [splitOnDot, h]
      split <;> simp

theorem splitOnDot_cons_dot (b : List Char) : splitOnDot ('.' :: b) = [] :: splitOnDot b := by
  rcases h : splitOnDot b with _ | ⟨w, ws⟩
  · exact absurd h (splitOnDot_ne_nil b)
  · simp [splitOnDot, h]

theorem splitOnDot_append (a : List Char) :
    ∀ b, ('.' : Char) ∉ a → splitOnDot (a ++ '.' :: b) = a :: splitOnDot b := by
  induction a with
  | nil => intro b _; simpa using splitOnDot_cons_dot b
  | cons c cs ih =>
    intro b h
    have hc : c ≠ '.' := fun he => h (by simp [he])
    have hcs : ('.' : Char) ∉ cs := fun hm => h (by simp [hm])
    rcases hsp : splitOnDot (cs ++ '.' :: b) with _ | ⟨w, ws⟩
    · exact absurd hsp (splitOnDot_ne_nil _)
    · rw [ih b hcs] at hsp
      rcases hsp with ⟨rfl, rfl⟩  -- hmm, injection on list cons
      simp [splitOnDot, ih b hcs, hc]

theorem splitOnDot_no_dot (a : List Char) (h : ('.' : Char) ∉ a) : splitOnDot a = [a] := by
  induction a with
  | nil => simp [splitOnDot]
  | cons c cs ih =>
    have hc : c ≠ '.' := fun he => h (by simp [he])
    have hcs : ('.' : Char) ∉ cs := fun hm => h (by simp [hm])
    simp [splitOnDot, ih hcs, hc]

/-! ## Infrastructure lemmas: JS first-occurrence replace and substring test -/

theorem isPrefixOf_self_append (l r : List Char) : l.isPrefixOf (l ++ r) = true := by
  induction l with
  | nil => simp [List.isPrefixOf]
  | cons a as ih => simp [List.isPrefixOf, ih]

theorem replaceFirst_append_self (pat rep rest : List Char) (h : pat ≠ []) :
    replaceFirst pat rep (pat ++ rest) = rep ++ rest := by
  match pat, h with
  | p :: ps, _ =>
    rw [List.cons_append, replaceFirst, if_pos]
    · rw [← List.cons_append, List.drop_left]
    · rw [← List.cons_append]
      exact isPrefixOf_self_append (p :: ps) rest

theorem replaceFirst_of_not_containsSub (pat rep : List Char) :
    ∀ s, containsSub pat s = false → replaceFirst pat rep s = s := by
  intro s
  induction s with
  | nil =>
    intro h
    simp only [containsSub] at h
    simp [replaceFirst, h]
  | cons c cs ih =>
    intro h
    simp only [containsSub, Bool.or_eq_false_iff] at h
    rw [replaceFirst, if_neg (by simp [h.1]), ih h.2]

theorem stripBearer_bearer_append (t : String) : stripBearer ("Bearer " ++ t) = t := by
  unfold stripBearer
  rw [String.data_append]
  rw [replaceFirst_append_self "Bearer ".data [] t.data (by decide)]
  rfl

theorem stripBearer_of_no_bearer (t : String)
    (h : containsSub "Bearer ".data t.data = false) : stripBearer t = t := by
  unfold stripBearer
  rw [replaceFirst_of_not_containsSub "Bearer ".data [] t.data h]

/-! ## Infrastructure lemmas: bcrypt and jwt models -/

theorem bcryptCompare_bcryptHash (plain : String) (salt : Nat) :
    bcryptCompare plain (bcryptHash plain salt) = true := by
  unfold bcryptCompare bcryptHash
  have h : ('$' :: plain.data) <:+ (natDigits salt ++ '$' :: plain.data) :=
    List.suffix_append _ _
  simp [ List.isSuffixOf_iff_suffix, h]

theorem jwtVerify_jwtSign (uid sec : String) (now tnow : Nat)
    (hu : ('.' : Char) ∉ uid.data) (hs : ('.' : Char) ∉ sec.data)
    (ht : tnow < now + 3600) :
    jwtVerify (jwtSign uid sec now) sec tnow =
      some { id := uid, iat := now, exp := now + 3600 } := by
  unfold jwtSign jwtVerify
  rw [show (String.mk ("jwt".data ++ '.' :: (sec.data ++ '.' :: (uid.data ++
      '.' :: (natDigits now ++ '.' :: natDigits (now + 3600)))))).data =
      "jwt".data ++ '.' :: (sec.data ++ '.' :: (uid.data ++
      '.' :: (natDigits now ++ '.' :: natDigits (now + 3600)))) from rfl]
  rw [splitOnDot_append "jwt".data _ (by decide),
      splitOnDot_append sec.data _ hs,
      splitOnDot_append uid.data _ hu,
      splitOnDot_append (natDigits now) _ (dot_not_mem_natDigits now),
      splitOnDot_no_dot (natDigits (now + 3600)) (dot_not_mem_natDigits (now + 3600))]
  simp only [digitsToNat_natDigits]
  simp [ht]

/-! ## Claim theorems -/

/-- C2: every project `listProjects` returns for actor A is owned by A,
and a project created by a distinct authenticated user B never appears in
A's `listProjects` result, which B's creation leaves unchanged (the
symmetric direction is this statement with A and B swapped). -/
theorem projects_owner_isolation (db : DB) (A B : UserDoc) (name : String)
    (hAB : A._id ≠ B._id) :
    (∀ p ∈ listProjects db A, p.user = A._id) ∧
    (∀ p, (createProject db B (some name)).2 = .ok p →
      p ∉ listProjects (createProject db B (some name)).1 A ∧
      listProjects (createProject db B (some name)).1 A = listProjects db A) := by
  constructor
  · intro p hp
    have h := List.mem_filter.mp hp
    simpa using h.2
  · intro p hp
    simp only [createProject] at hp ⊢
    obtain rfl := Except.ok.inj hp
    constructor
    · intro hmem
      have h := List.mem_filter.mp hmem
      have : B._id = A._id := by simpa using h.2
      exact hAB this.symm
    · show List.filter _ (db.projects ++ [_]) = _
      rw [List.filter_append]
      have hf : (List.filter (fun p : ProjectDoc => p.user == A._id)
          [{ _id := objectIdOf db.nextId, name := name, user := B._id }]) = [] := by
        have hne : (B._id == A._id) = false :=
          beq_eq_false_iff_ne.mpr (fun h => hAB h.symm)
        simp [List.filter, hne]
      rw [hf, List.append_nil]
      rfl

/-- C2 witness: concrete two-user store where the theorem's hypotheses
hold and B's freshly created project stays out of A's listing. -/
theorem projects_owner_isolation_witness :
    (∀ p ∈ listProjects dbW userA, p.user = userA._id) ∧
    ({ _id := objectIdOf 7, name := "New", user := userB._id } : ProjectDoc) ∉
      listProjects (createProject dbW userB (some "New")).1 userA := by
  have h := projects_owner_isolation dbW userA userB "New" (by decide)
  exact ⟨h.1, (h.2 _ rfl).1⟩

/-- C7: creating a project with no name is a validation failure, creating
a todo missing title, priority or status is a validation failure, and
every successfully created project or todo carries the actor's id as its
owner. -/
theorem create_required_fields (db : DB) (a : UserDoc) (pid : String)
    (title description priority status : Option String) :
    (createProject db a none = (db, .error .validationError)) ∧
    (title = none ∨ priority = none ∨ status = none →
      createTodo db a pid title description priority status =
        (db, .error .validationError)) ∧
    (∀ n p, (createProject db a (some n)).2 = .ok p → p.user = a._id) ∧
    (∀ t, (createTodo db a pid title description priority status).2 = .ok t →
      t.user = a._id) := by
  refine ⟨rfl, ?_, ?_, ?_⟩
  · intro h
    rcases title with _ | ti <;> rcases priority with _ | pr <;> rcases status with _ | st <;>
      first
        | rfl
        | (exfalso; rcases h with h | h | h <;> exact Option.noConfusion h)
  · intro n p hp
    simp only [createProject] at hp
    obtain rfl := Except.ok.inj hp
    rfl
  · intro t ht
    rcases title with _ | ti <;> rcases priority with _ | pr <;> rcases status with _ | st <;>
      simp only [createTodo] at ht <;> first
        | exact Except.noConfusion ht
        | (obtain rfl := Except.ok.inj ht; rfl)

/-- C7 witness: a missing name and a missing title each yield the
validation error on the concrete store, and the concrete successful
creations are stamped with the actor's id. -/
theorem create_required_fields_witness :
    createProject dbW userA none = (dbW, .error .validationError) ∧
    createTodo dbW userA "333333333333" none (some "d") (some "Low") (some "todo") =
      (dbW, .error .validationError) ∧
    ({ _id := objectIdOf 7, name := "N", user := userA._id } : ProjectDoc).user = userA._id ∧
    ({ _id := objectIdOf 7, title := "T", description := some "d", priority := "Low",
       status := "todo", project := "333333333333", user := userA._id } : TodoDoc).user =
      userA._id := by
  have h1 := create_required_fields dbW userA "333333333333" none (some "d") (some "Low")
    (some "todo")
  have h2 := create_required_fields dbW userA "333333333333" (some "T") (some "d")
    (some "Low") (some "todo")
  exact ⟨h1.1, h1.2.1 (Or.inl rfl), h2.2.2.1 "N" _ rfl, h2.2.2.2 _ rfl⟩

/-- C8: a successful `createTodo` immediately followed by `listTodos` for
the same actor and project returns the created todo with the submitted
title, description, priority and status intact. -/
theorem createTodo_listTodos_roundtrip (db : DB) (a : UserDoc)
    (pid ti pr st : String) (de : Option String) :
    ∃ t, (createTodo db a pid (some ti) de (some pr) (some st)).2 = .ok t ∧
      t ∈ listTodos (createTodo db a pid (some ti) de (some pr) (some st)).1 a pid ∧
      t.title = ti ∧ t.description = de ∧ t.priority = pr ∧ t.status = st := by
  refine ⟨_, rfl, ?_, rfl, rfl, rfl, rfl⟩
  simp [createTodo, listTodos]

/-- Erasing the document with `t`'s key removes `t` when keys are unique. -/
theorem not_mem_eraseP_of_nodup_key (t : TodoDoc) :
    ∀ l : List TodoDoc, (l.map (fun x => x._id)).Nodup → t ∈ l →
      t ∉ l.eraseP (fun x => x._id == t._id) := by
  intro l
  induction l with
  | nil => intro _ h; simp at h
  | cons x xs ih =>
    intro hnd hmem
    rw [List.map_cons, List.nodup_cons] at hnd
    by_cases hx : (x._id == t._id) = true
    · simp only [List.eraseP_cons, hx, cond_true]
      intro hcontra
      have hin : t._id ∈ xs.map (fun x => x._id) := List.mem_map_of_mem _ hcontra
      have hxid : x._id = t._id := by simpa using hx
      exact hnd.1 (hxid ▸ hin)
    · have hxf : (x._id == t._id) = false := by simpa using hx
      simp only [List.eraseP_cons, hxf, cond_false]
      intro hcontra
      rcases List.mem_cons.mp hcontra with rfl | hmem2
      · exact hx (beq_self_eq_true _)
      · have htxs : t ∈ xs := by
          rcases List.mem_cons.mp hmem with rfl | h2
          · exact absurd (beq_self_eq_true t._id) hx
          · exact h2
        exact ih hnd.2 htxs hmem2

/-- C6: a malformed todo id makes both `updateTodo` and `deleteTodo` fail
with the invalid-id error leaving any store untouched, a well-formed id
matching no stored todo makes both fail with not-found, and a successful
`deleteTodo` returns the deleted entity. -/
theorem todo_id_validation (db : DB) (a : UserDoc) (tid : String)
    (body : UpdateBody) (t : TodoDoc) :
    (isValidObjectId tid = false →
      updateTodo db a tid body = (db, .error .invalidId) ∧
      deleteTodo db a tid = (db, .error .invalidId)) ∧
    (isValidObjectId tid = true → db.todos.find? (fun x => x._id == tid) = none →
      updateTodo db a tid body = (db, .error .notFound) ∧
      deleteTodo db a tid = (db, .error .notFound)) ∧
    (isValidObjectId tid = true → db.todos.find? (fun x => x._id == tid) = some t →
      (deleteTodo db a tid).2 = .ok t) := by
  refine ⟨?_, ?_, ?_⟩
  · intro h
    constructor <;> simp [updateTodo, deleteTodo, h]
  · intro h hf
    constructor <;> simp [updateTodo, deleteTodo, h, hf]
  · intro h hf
    simp [deleteTodo, h, hf]

/-- C6 witness: a 2-character id is rejected with invalid-id and the
store value is returned unchanged, an absent well-formed id gives
not-found, and deleting the stored todo returns it. -/
theorem todo_id_validation_witness :
    updateTodo dbW userA "x!" bodyW = (dbW, .error .invalidId) ∧
    deleteTodo dbW userA "x!" = (dbW, .error .invalidId) ∧
    updateTodo dbW userA "cccccccccccc" bodyW = (dbW, .error .notFound) ∧
    deleteTodo dbW userA "cccccccccccc" = (dbW, .error .notFound) ∧
    (deleteTodo dbW userA "aaaaaaaaaaaa").2 = .ok todoA := by
  have h1 := todo_id_validation dbW userA "x!" bodyW todoA
  have h2 := todo_id_validation dbW userA "cccccccccccc" bodyW todoA
  have h3 := todo_id_validation dbW userA "aaaaaaaaaaaa" bodyW todoA
  exact ⟨(h1.1 rfl).1, (h1.1 rfl).2, (h2.2.1 rfl rfl).1, (h2.2.1 rfl rfl).2,
    h3.2.2 rfl rfl⟩

/-- C9: a PATCH body is merged field by field into the stored todo: every
field present in the body — including the `project` and `user` references,
which lie outside the four content fields — overwrites the stored value,
and every absent field keeps its previous value. -/
theorem update_merges_body (db : DB) (a : UserDoc) (t : TodoDoc) (body : UpdateBody)
    (hfind : db.todos.find? (fun x => x._id == t._id) = some t)
    (hvalid : isValidObjectId t._id = true) :
    ∃ t', (updateTodo db a t._id body).2 = .ok t' ∧
      t' ∈ (updateTodo db a t._id body).1.todos ∧
      t'.title = body.title.getD t.title ∧
      t'.description = body.description.or t.description ∧
      t'.priority = body.priority.getD t.priority ∧
      t'.status = body.status.getD t.status ∧
      t'.project = body.project.getD t.project ∧
      t'.user = body.user.getD t.user := by
  refine ⟨applyUpdate t body, ?_, ?_, rfl, rfl, rfl, rfl, rfl, rfl⟩
  · simp [updateTodo, hvalid, hfind]
  · simp [updateTodo, hvalid, hfind]
    exact ⟨t, List.mem_of_find?_eq_some hfind, fun hne => absurd rfl hne⟩

/-- C9 witness: a body carrying `project` and `user` values reassigns both
references on the stored todo. -/
theorem update_merges_body_witness :
    ∃ t', (updateTodo dbW userA todoA._id bodyW).2 = .ok t' ∧
      t'.project = "444444444444" ∧ t'.user = "222222222222" ∧
      t'.project ≠ todoA.project ∧ t'.user ≠ todoA.user := by
  obtain ⟨t', h1, _, _, _, _, _, hproj, huser⟩ :=
    update_merges_body dbW userA todoA bodyW rfl (by decide)
  refine ⟨t', h1, ?_, ?_, ?_, ?_⟩
  · rw [hproj]; rfl
  · rw [huser]; rfl
  · rw [hproj]; decide
  · rw [huser]; decide

/-- C1: for an authenticated actor B distinct from the owner of a stored
todo, `updateTodo` succeeds and writes the merged todo into the store and
`deleteTodo` succeeds, returns the todo and removes it; both operations
are entirely independent of the acting user, so the owner id is never
compared to the actor. -/
theorem update_delete_ignore_owner (db : DB) (B : UserDoc) (t : TodoDoc)
    (body : UpdateBody)
    (hfind : db.todos.find? (fun x => x._id == t._id) = some t)
    (hvalid : isValidObjectId t._id = true)
    (hnodup : (db.todos.map (fun x => x._id)).Nodup)
    (_hB : B._id ≠ t.user) :
    ((updateTodo db B t._id body).2 = .ok (applyUpdate t body) ∧
      applyUpdate t body ∈ (updateTodo db B t._id body).1.todos) ∧
    ((deleteTodo db B t._id).2 = .ok t ∧ t ∉ (deleteTodo db B t._id).1.todos) ∧
    (∀ A : UserDoc, updateTodo db A t._id body = updateTodo db B t._id body ∧
      deleteTodo db A t._id = deleteTodo db B t._id) := by
  refine ⟨⟨?_, ?_⟩, ⟨?_, ?_⟩, fun A => ⟨rfl, rfl⟩⟩
  · simp [updateTodo, hvalid, hfind]
  · simp [updateTodo, hvalid, hfind]
    exact ⟨t, List.mem_of_find?_eq_some hfind, fun hne => absurd rfl hne⟩
  · simp [deleteTodo, hvalid, hfind]
  · have hout := not_mem_eraseP_of_nodup_key t db.todos hnodup
      (List.mem_of_find?_eq_some hfind)
    simp [deleteTodo, hvalid, hfind]
    exact hout

/-- C1 witness: user B, who does not own the stored todo, successfully
rewrites it and successfully deletes it. -/
theorem update_delete_ignore_owner_witness :
    userB._id ≠ todoA.user ∧
    (updateTodo dbW userB todoA._id bodyW).2 = .ok (applyUpdate todoA bodyW) ∧
    (deleteTodo dbW userB todoA._id).2 = .ok todoA ∧
    todoA ∉ (deleteTodo dbW userB todoA._id).1.todos := by
  have h := update_delete_ignore_owner dbW userB todoA bodyW rfl (by decide)
    (by decide) (by decide)
  exact ⟨by decide, h.1.1, h.2.1.1, h.2.1.2⟩

/-- A register request never introduces a duplicate email: an existing
email is rejected before the insert, and a fresh insert carries an email
the store did not contain. -/
theorem runRegister_emailsNodup (sec : String) (now : Nat) (db : DB)
    (r : String × String) (h : emailsNodup db) :
    emailsNodup (runRegister sec now db r) := by
  rcases hf : db.users.find? (fun u => u.email == r.1) with _ | u
  · unfold emailsNodup at h ⊢
    simp only [runRegister, register, hf, List.map_append, List.map_cons, List.map_nil]
    rw [List.nodup_append]
    refine ⟨h, List.nodup_singleton _, ?_⟩
    intro a ha hb
    simp only [List.mem_singleton] at hb
    subst hb
    have hnone := List.find?_eq_none.mp hf
    rcases List.mem_map.mp ha with ⟨u, hu, he⟩
    exact hnone u hu (by simp [he])
  · simpa only [runRegister, register, hf] using h

/-- Email uniqueness is preserved by any sequence of register requests. -/
theorem foldl_runRegister_emailsNodup (sec : String) (now : Nat) :
    ∀ (reqs : List (String × String)) (db : DB), emailsNodup db →
      emailsNodup (reqs.foldl (runRegister sec now) db) := by
  intro reqs
  induction reqs with
  | nil => intro db h; exact h
  | cons r rs ih =>
    intro db h
    exact ih _ (runRegister_emailsNodup sec now db r h)

/-- C4: registering an email that already has a user fails with the
duplicate-email error and returns the store unchanged, and no sequence of
register requests can make two stored users share an email. -/
theorem register_unique_emails (db : DB) (sec e p : String) (now : Nat)
    (reqs : List (String × String)) :
    ((∃ u ∈ db.users, u.email = e) →
      register db sec now e p = (db, .error .duplicateEmail)) ∧
    (emailsNodup db → emailsNodup (reqs.foldl (runRegister sec now) db)) := by
  constructor
  · rintro ⟨u, hu, he⟩
    rcases hf : db.users.find? (fun x => x.email == e) with _ | v
    · have hcontra := List.find?_eq_none.mp hf u hu
      simp [he] at hcontra
    · simp [register, hf]
  · exact foldl_runRegister_emailsNodup sec now reqs db

/-- C4 witness: re-registering `a@x.com` on the concrete store is rejected
with the store unchanged, and a request sequence with a repeated email
leaves the stored emails duplicate-free. -/
theorem register_unique_emails_witness :
    register dbW secW 0 "a@x.com" "pw9" = (dbW, .error .duplicateEmail) ∧
    emailsNodup ([("a@x.com", "p1"), ("a@x.com", "p2"), ("c@z.com", "p3")].foldl
      (runRegister secW 0) dbW) := by
  have h := register_unique_emails dbW secW "a@x.com" "pw9" 0
    [("a@x.com", "p1"), ("a@x.com", "p2"), ("c@z.com", "p3")]
  refine ⟨h.1 ⟨userA, by decide, rfl⟩, h.2 ?_⟩
  unfold emailsNodup
  decide

/-- C3: on any request the Auth Gate produces exactly one of four
outcomes, each characterised by its trigger: unauthenticated exactly when
no token is present, invalid-token exactly when a token is present but
verification fails, user-not-found exactly when verification succeeds but
the encoded id matches no stored user, and success — attaching precisely
the resolved user — otherwise. -/
theorem authMiddleware_cases (db : DB) (sec : String) (now : Nat)
    (h : Option String) :
    (authMiddleware db sec now h = .error .unauthenticated ∨
     authMiddleware db sec now h = .error .invalidToken ∨
     authMiddleware db sec now h = .error .userNotFound ∨
     ∃ u, authMiddleware db sec now h = .ok u) ∧
    (authMiddleware db sec now h = .error .unauthenticated ↔
      extractToken h = none) ∧
    (authMiddleware db sec now h = .error .invalidToken ↔
      ∃ t, extractToken h = some t ∧ jwtVerify t sec now = none) ∧
    (authMiddleware db sec now h = .error .userNotFound ↔
      ∃ t pl, extractToken h = some t ∧ jwtVerify t sec now = some pl ∧
        db.users.find? (fun u => u._id == pl.id) = none) ∧
    (∀ u, authMiddleware db sec now h = .ok u ↔
      ∃ t pl, extractToken h = some t ∧ jwtVerify t sec now = some pl ∧
        db.users.find? (fun x => x._id == pl.id) = some u) := by
  rcases he : extractToken h with _ | t
  · simp [authMiddleware, he]
  · rcases hv : jwtVerify t sec now with _ | pl
    · simp [authMiddleware, he, hv]
    · rcases hf : db.users.find? (fun u => u._id == pl.id) with _ | u
      · have hf' := List.find?_eq_none.mp hf
        simp only [beq_iff_eq] at hf'
        simp [authMiddleware, he, hv, hf]
        exact hf'
      · have hu := List.mem_of_find?_eq_some hf
        have hup : u._id = pl.id := by simpa using List.find?_some hf
        simp [authMiddleware, he, hv, hf]
        exact ⟨u, hu, hup⟩

/-- C3 witness: a request with no Authorization header lands in the
unauthenticated case on the concrete store. -/
theorem authMiddleware_cases_witness :
    authMiddleware dbW secW 0 none = .error .unauthenticated :=
  (authMiddleware_cases dbW secW 0 none).2.1.mpr rfl

/-- C10: the Bearer prefix is optional: for a non-empty header value not
containing the string `Bearer ` anywhere, the gate behaves identically
with and without the prefix (so a bare valid token authenticates and
resolves the same user), while a header of exactly `Bearer ` — an empty
token after stripping — fails as unauthenticated. -/
theorem bearer_handling (db : DB) (sec : String) (now : Nat) (t : String) :
    (t ≠ "" → containsSub "Bearer ".data t.data = false →
      authMiddleware db sec now (some ("Bearer " ++ t)) =
        authMiddleware db sec now (some t)) ∧
    (∀ pl u, t ≠ "" → containsSub "Bearer ".data t.data = false →
      jwtVerify t sec now = some pl →
      db.users.find? (fun x => x._id == pl.id) = some u →
      authMiddleware db sec now (some t) = .ok u) ∧
    authMiddleware db sec now (some "Bearer ") = .error .unauthenticated := by
  refine ⟨?_, ?_, rfl⟩
  · intro hne hns
    have h1 : extractToken (some ("Bearer " ++ t)) = some t := by
      simp [extractToken, stripBearer_bearer_append, hne]
    have h2 : extractToken (some t) = some t := by
      simp [extractToken, stripBearer_of_no_bearer t hns, hne]
    simp [authMiddleware, h1, h2]
  · intro pl u hne hns hv hf
    have h2 : extractToken (some t) = some t := by
      simp [extractToken, stripBearer_of_no_bearer t hns, hne]
    simp [authMiddleware, h2, hv, hf]

/-- C10 witness: the concrete signed token authenticates user A both bare
and with the Bearer prefix, and a lone `Bearer ` header is rejected as
having no token. -/
theorem bearer_handling_witness :
    authMiddleware dbW secW 0 (some ("Bearer " ++ tokenW)) =
      authMiddleware dbW secW 0 (some tokenW) ∧
    authMiddleware dbW secW 0 (some tokenW) = .ok userA ∧
    authMiddleware dbW secW 0 (some "Bearer ") = .error .unauthenticated := by
  have h := bearer_handling dbW secW 0 tokenW
  refine ⟨h.1 (by decide) (by decide), ?_, h.2.2⟩
  exact h.2.1 { id := "111111111111", iat := 0, exp := 3600 } userA
    (by decide) (by decide) (by decide) (by decide)

/-- C5: logging in with a stored user's email and correct password yields
a token that verifies to that user's id with expiry exactly one hour after
issuance; an email with no user fails with not-found, and a failing
password comparison fails with the bad-password error. -/
theorem login_issues_valid_token (db : DB) (sec : String) (now : Nat)
    (u : UserDoc) (p e : String) :
    ((∀ x ∈ db.users, x.email ≠ e) → login db sec now e p = .error .notFound) ∧
    (db.users.find? (fun x => x.email == u.email) = some u →
      bcryptCompare p u.password = false →
      login db sec now u.email p = .error .badPassword) ∧
    (db.users.find? (fun x => x.email == u.email) = some u →
      bcryptCompare p u.password = true →
      ('.' : Char) ∉ u._id.data → ('.' : Char) ∉ sec.data →
      login db sec now u.email p = .ok (jwtSign u._id sec now) ∧
      jwtVerify (jwtSign u._id sec now) sec now =
        some { id := u._id, iat := now, exp := now + 3600 }) := by
  refine ⟨?_, ?_, ?_⟩
  · intro hno
    have hf : db.users.find? (fun x => x.email == e) = none :=
      List.find?_eq_none.mpr (fun x hx => by simp [hno x hx])
    simp [login, hf]
  · intro hf hc
    simp [login, hf, hc]
  · intro hf hc h1 h2
    exact ⟨by simp [login, hf, hc],
      jwtVerify_jwtSign u._id sec now now h1 h2 (by omega)⟩

/-- C5 witness: on the concrete store, an unknown email is not found, a
wrong password for `b@y.com` is rejected, and `a@x.com` with the correct
password receives a token verifying to user A's id with expiry 3600
seconds after issuance. -/
theorem login_issues_valid_token_witness :
    login dbW secW 0 "nobody@x.com" "pw" = .error .notFound ∧
    login dbW secW 0 "b@y.com" "wrong" = .error .badPassword ∧
    login dbW secW 0 "a@x.com" "pw1" = .ok (jwtSign "111111111111" secW 0) ∧
    jwtVerify (jwtSign "111111111111" secW 0) secW 0 =
      some { id := "111111111111", iat := 0, exp := 3600 } := by
  have h1 := login_issues_valid_token dbW secW 0 userA "pw" "nobody@x.com"
  have h2 := login_issues_valid_token dbW secW 0 userB "wrong" ""
  have h3 := login_issues_valid_token dbW secW 0 userA "pw1" ""
  have hb := h2.2.1 rfl (by decide)
  have ha := h3.2.2 rfl (by decide) (by decide) (by decide)
  exact ⟨h1.1 (by decide), hb, ha.1, ha.2⟩

end TodoApp
